import Mathlib

/-!
Shallow embedding of the SolSniper token-sniping stack (src/app), covering the
data model (models.py), the mint extraction and polling dedup logic
(tasks/listener.py), the scan pipeline (tasks/analyzer.py), the price sweep
(tasks/price_bot.py) and candidate promotion (tasks/wallet_discovery.py),
together with proofs of the spec's claims about them.

Machine conventions: timestamps are `Int` epoch seconds, market caps and
liquidity are `ℚ` (Python floats carry JSON numbers; the thresholds compared
against are integral), Python `str` is `String` restricted to ASCII content
(`isalnum` is modelled with `Char.isAlphanum`).
-/

namespace SolSniper

/-! ## Data model (src/app/models.py) -/

/-- WalletStatus enum from models.py. -/
inductive WalletStatus where
  | active
  | paused
deriving DecidableEq, Repr

/-- TokenStatus enum from models.py. -/
inductive TokenStatus where
  | bonding_curve
  | graduated
  | rugged
deriving DecidableEq, Repr

/-- TrackedWallet row (models.py); only the fields the modelled code reads or
writes are carried (win_rate and tracked_at are never consulted by the
analyzer, price bot or promotion logic). -/
structure TrackedWallet where
  address : String
  label : String
  status : WalletStatus
  source : Option String
deriving DecidableEq, Repr

/-- Token row (models.py); created_at as epoch seconds. -/
structure Token where
  contract_address : String
  symbol : String
  created_at : Int
  dev_address : String
  market_cap_at_scan : ℚ
  status : TokenStatus
deriving DecidableEq, Repr

/-- Signal row (models.py); id and timestamp are store-generated and never
read by the modelled code, so they are omitted. -/
structure Signal where
  token_address : String
  smart_wallet_count : Nat
  confidence_score : Nat
  is_executed : Bool
deriving DecidableEq, Repr

/-- SmartWalletCandidate row (models.py); id and first_seen omitted (never
read by the modelled code). -/
structure SmartWalletCandidate where
  wallet_address : String
  token_count : Nat
  token_symbols : String
  is_promoted : Bool
deriving DecidableEq, Repr

/-- One parsed Helius enhanced transaction, with the fields analyzer.py
reads: timestamp, feePayer, source, type. Missing JSON keys are `none`
(for `source` and `type` the code always supplies a default of ""). -/
structure Tx where
  timestamp : Option Int
  feePayer : Option String
  source : String
  type : String
deriving DecidableEq, Repr

/-- The relational store slice the real-time pipeline touches. -/
structure Store where
  tokens : List Token
  signals : List Signal
  wallets : List TrackedWallet
deriving DecidableEq, Repr

/-! ## Python string helpers

`strContains` is Python's `in` on strings, `pySplitWs` is `str.split()`
(split on whitespace runs, dropping empties), `pyStrip` is
`str.strip(",.;:'\"()")`, `pyIsAlnum` is `str.isalnum()` (ASCII). -/

/-- Does the character list begin with the given pattern? -/
def listBeginsWith : List Char → List Char → Bool
  | [], _ => true
  | _ :: _, [] => false
  | p :: ps, c :: cs => p = c && listBeginsWith ps cs

/-- Does the character list contain the pattern as a contiguous run? -/
def listHasSub (pat : List Char) : List Char → Bool
  | [] => listBeginsWith pat []
  | c :: cs => listBeginsWith pat (c :: cs) || listHasSub pat cs

/-- Python's `pat in s` for strings. -/
def strContains (s pat : String) : Bool :=
  listHasSub pat.toList s.toList

/-- Accumulator pass for whitespace splitting: `acc` holds the current word
reversed; words are emitted at whitespace boundaries and at the end. -/
def wordsAux : List Char → List Char → List String
  | [], acc => if acc.isEmpty then [] else [String.mk acc.reverse]
  | c :: cs, acc =>
    if c.isWhitespace then
      if acc.isEmpty then wordsAux cs []
      else String.mk acc.reverse :: wordsAux cs []
    else wordsAux cs (c :: acc)

/-- Python `str.split()` with no argument: split on whitespace runs, dropping
empty parts. -/
def pySplitWs (s : String) : List String :=
  wordsAux s.toList []

/-- The characters stripped by listener.py's `part.strip(",.;:'\"()")`. -/
def stripSet : List Char :=
  [',', '.', ';', ':', Char.ofNat 39, Char.ofNat 34, '(', ')']

/-- Python `s.strip(",.;:'\"()")`: drop those characters from both ends. -/
def pyStrip (s : String) : String :=
  let l1 := s.toList.dropWhile (fun c => stripSet.contains c)
  String.mk ((l1.reverse.dropWhile (fun c => stripSet.contains c)).reverse)

/-- Python `s.isalnum()` (ASCII fragment): nonempty and all alphanumeric. -/
def pyIsAlnum (s : String) : Bool :=
  s ≠ "" && s.toList.all Char.isAlphanum

/-- Python `s.lower()` (ASCII fragment), as a character-list map. -/
def pyLower (s : String) : String :=
  String.mk (s.toList.map Char.toLower)

/-! ## Mint extraction from logs (src/app/tasks/listener.py, lines 32-52) -/

/-- Does one split token of a log line qualify as a candidate mint address
(listener.py lines 49-51): after stripping surrounding punctuation its length
is within [32,44] and it is alphanumeric; if so, return the cleaned token. -/
def qualifyLogToken (part : String) : Option String :=
  let cleaned := pyStrip part
  if 32 ≤ cleaned.length ∧ cleaned.length ≤ 44 ∧ pyIsAlnum cleaned then
    some cleaned
  else none

/-- listener.py `_extract_token_address_from_logs`: scan every line whose
text contains the substring "Create" or "create"; within such a line, return
the first whitespace-separated token that qualifies after punctuation
stripping; return the first such hit across lines, else none. -/
def extract_token_address_from_logs (log_messages : List String) : Option String :=
  log_messages.findSome? fun msg =>
    if strContains msg "Create" ∨ strContains msg "create" then
      (pySplitWs msg).findSome? qualifyLogToken
    else none

/-- Modelled from the claim's words (for comparison with the code): scan every
line containing a creation marker, where the marker is "Create"
case-insensitively or "InitializeMint", and return the first qualifying
token. Shares `qualifyLogToken` with the code's function. -/
def extract_from_logs_claimed (log_messages : List String) : Option String :=
  log_messages.findSome? fun msg =>
    if strContains (pyLower msg) "create" ∨ strContains msg "InitializeMint" then
      (pySplitWs msg).findSome? qualifyLogToken
    else none

/-! ## Polling dedup cap (src/app/tasks/listener.py, lines 246-248)

`seen_signatures` is a Python `set[str]`; the cap is
`if len(seen) > 5000: seen = set(list(seen)[-2000:])`. `list(seen)` produces
the elements in the set's iteration order, which CPython does not tie to
insertion order; the embedding therefore takes that enumeration as an
explicit input: any permutation of the set's elements is a possible
behaviour. The function is stated over an arbitrary element type. -/

/-- The cap step on one enumeration of the seen-set: when more than 5000
signatures are held, retain the last 2000 entries of the enumeration. -/
def capSeen {α : Type} (seenEnum : List α) : List α :=
  if seenEnum.length > 5000 then
    seenEnum.drop (seenEnum.length - 2000)
  else seenEnum

/-! ## Token metadata (src/app/tasks/analyzer.py, get_token_metadata)

The network fetch is a parameter: `txsFetch = none` models a transport
error/timeout (the function returns `none` and the candidate is dropped);
`txsFetch = some txs` is the parsed JSON list returned by the Helius
enhanced-transactions endpoint, newest-first, possibly empty. `dasSymbol`
is the symbol delivered by the DAS `getAsset` lookup (`none` when the lookup
fails or the key is absent). `now` is `datetime.now(timezone.utc)` in epoch
seconds. Python truthiness: a timestamp of 0 is falsy and is not used. -/

/-- Metadata dict produced by `get_token_metadata`. -/
structure Meta where
  symbol : String
  created_at : Int
  dev_address : String
  market_cap : ℚ
deriving DecidableEq, Repr

/-- The pump.fun source tags recognized by analyzer.py. -/
def pumpSources : List String := ["PUMP_FUN", "PUMP_AMM", "PUMP"]

/-- The creation-time/dev refinement pass of `get_token_metadata` lines
89-98: walk the transactions oldest-first (`reversed(txs)`) and take the
first whose source is a pump.fun tag, overriding dev and (when its timestamp
is truthy) created_at. -/
def refinePump : List Tx → Int → String → Int × String
  | [], created, dev => (created, dev)
  | tx :: rest, created, dev =>
    if pumpSources.contains tx.source then
      let dev' := tx.feePayer.getD dev
      match tx.timestamp with
      | some t => if t ≠ 0 then (t, dev') else (created, dev')
      | none => (created, dev')
    else refinePump rest created dev

/-- analyzer.py `get_token_metadata`: `none` on transport error; otherwise
creation time defaults to now and dev to "unknown", overridden from the
oldest transaction (last in the newest-first list) and refined by the first
pump-source transaction oldest-first; symbol falls back to the first 6
characters of the address when DAS gives none; market cap is 0. -/
def get_token_metadata (token_address : String) (txsFetch : Option (List Tx))
    (dasSymbol : Option String) (now : Int) : Option Meta :=
  match txsFetch with
  | none => none
  | some txs =>
    let base : Int × String :=
      match txs.getLast? with
      | none => (now, "unknown")
      | some oldest =>
        let created :=
          match oldest.timestamp with
          | some t => if t ≠ 0 then t else now
          | none => now
        (created, oldest.feePayer.getD "unknown")
    let refined := refinePump txs.reverse base.1 base.2
    let symbol := dasSymbol.getD (token_address.take 6)
    some { symbol := symbol, created_at := refined.1,
           dev_address := refined.2, market_cap := 0 }

/-! ## Scan pipeline (src/app/tasks/analyzer.py, scan_new_token)

Each early `return` of `scan_new_token` logs a distinct message, so the
branch taken is observable; the embedding returns it alongside the store. -/

/-- The observable outcome of one `scan_new_token` call, one constructor per
return point of the Python function. -/
inductive ScanResult where
  | alreadyScanned
  | metadataUnavailable
  | tooOld
  | notEnoughMatches
  | signalGenerated
deriving DecidableEq, Repr

/-- Ten minutes, the age cutoff `timedelta(minutes=10)`, in seconds. -/
def ageCutoff : Int := 600

/-- The cross-reference query of scan_new_token lines 226-231: tracked
wallets whose address is among the fetched signers and whose status is
active. -/
def matchedWallets (wallets : List TrackedWallet) (signers : List String) :
    List TrackedWallet :=
  wallets.filter fun w => signers.contains w.address ∧ w.status = .active

/-- analyzer.py `scan_new_token`: dedup on existing Token, metadata fetch,
10-minute age filter, cross-reference against active tracked wallets
(discard below 2 matches), confidence `min(50 + count*10, 100)`, then a
single commit appending the Token and the Signal. Network results
(`txsFetch`, `dasSymbol`, `signers`) and the clock are parameters. -/
def scan_new_token (token_address : String) (txsFetch : Option (List Tx))
    (dasSymbol : Option String) (signers : List String) (now : Int)
    (db : Store) : Store × ScanResult :=
  if db.tokens.any (fun t => t.contract_address = token_address) then
    (db, .alreadyScanned)
  else
    match get_token_metadata token_address txsFetch dasSymbol now with
    | none => (db, .metadataUnavailable)
    | some meta =>
      if now - meta.created_at > ageCutoff then
        (db, .tooOld)
      else
        let smart_wallet_count := (matchedWallets db.wallets signers).length
        if smart_wallet_count < 2 then
          (db, .notEnoughMatches)
        else
          let confidence := min (50 + smart_wallet_count * 10) 100
          let token : Token :=
            { contract_address := token_address, symbol := meta.symbol,
              created_at := meta.created_at, dev_address := meta.dev_address,
              market_cap_at_scan := meta.market_cap, status := .bonding_curve }
          let signal : Signal :=
            { token_address := token_address,
              smart_wallet_count := smart_wallet_count,
              confidence_score := confidence, is_executed := false }
          ({ db with tokens := db.tokens ++ [token],
                     signals := db.signals ++ [signal] }, .signalGenerated)

/-- The store-only view of one scan (the observable persistent effect). -/
def scanStore (token_address : String) (txsFetch : Option (List Tx))
    (dasSymbol : Option String) (signers : List String) (now : Int)
    (db : Store) : Store :=
  (scan_new_token token_address txsFetch dasSymbol signers now db).1

/-! ## Scan under a concurrent Token insert (analyzer.py lines 200-263)

`scan_new_token` has no exception handler around its final
`session.add(token); session.add(signal); session.commit()`. If another
session inserts Token rows between the dedup check (line 201) and the commit
(line 263), the commit hits the primary-key constraint, SQLAlchemy raises
IntegrityError, the transaction rolls back (neither row persists) and the
exception propagates out of `scan_new_token` to the caller. The embedding
takes the concurrently inserted rows as a parameter: the dedup check sees the
store before them, the commit sees the store after them. The outcome is
`Except DBError ScanResult`: `.error .duplicateKey` is the propagated
IntegrityError. -/

/-- The store-level failure the unguarded commit can raise. -/
inductive DBError where
  | duplicateKey
deriving DecidableEq, Repr

/-- One atomic commit of a Token and a Signal against the tokens table's
primary-key constraint: on conflict the transaction rolls back, persisting
neither row. -/
def commitTokenSignal (db : Store) (token : Token) (signal : Signal) :
    Except DBError Store :=
  if db.tokens.any (fun t => t.contract_address = token.contract_address) then
    .error .duplicateKey
  else
    .ok { db with tokens := db.tokens ++ [token],
                  signals := db.signals ++ [signal] }

/-- `scan_new_token` with `concurrent` Token rows committed by another
session after this scan's dedup check and before its own commit. Returns the
final store (including the concurrent rows) and either the scan outcome or
the propagated duplicate-key error. -/
def scan_new_token_race (token_address : String) (txsFetch : Option (List Tx))
    (dasSymbol : Option String) (signers : List String) (now : Int)
    (db : Store) (concurrent : List Token) :
    Store × Except DBError ScanResult :=
  let dbC : Store := { db with tokens := db.tokens ++ concurrent }
  if db.tokens.any (fun t => t.contract_address = token_address) then
    (dbC, .ok .alreadyScanned)
  else
    match get_token_metadata token_address txsFetch dasSymbol now with
    | none => (dbC, .ok .metadataUnavailable)
    | some meta =>
      if now - meta.created_at > ageCutoff then
        (dbC, .ok .tooOld)
      else
        let smart_wallet_count := (matchedWallets db.wallets signers).length
        if smart_wallet_count < 2 then
          (dbC, .ok .notEnoughMatches)
        else
          let confidence := min (50 + smart_wallet_count * 10) 100
          let token : Token :=
            { contract_address := token_address, symbol := meta.symbol,
              created_at := meta.created_at, dev_address := meta.dev_address,
              market_cap_at_scan := meta.market_cap, status := .bonding_curve }
          let signal : Signal :=
            { token_address := token_address,
              smart_wallet_count := smart_wallet_count,
              confidence_score := confidence, is_executed := false }
          match commitTokenSignal dbC token signal with
          | .error e => (dbC, .error e)
          | .ok db2 => (db2, .ok .signalGenerated)

/-- Modelled from the spec's words (for comparison with the code): the same
scan, but a write conflict at commit "is treated as the dedup case — the
operation is abandoned without error surfacing". -/
def scan_new_token_race_claimed (token_address : String)
    (txsFetch : Option (List Tx)) (dasSymbol : Option String)
    (signers : List String) (now : Int) (db : Store)
    (concurrent : List Token) : Store × Except DBError ScanResult :=
  match scan_new_token_race token_address txsFetch dasSymbol signers now db
      concurrent with
  | (dbOut, .error .duplicateKey) => (dbOut, .ok .alreadyScanned)
  | other => other

/-! ## Price sweep (src/app/tasks/price_bot.py) -/

/-- One DexScreener pair, with the fields price_bot.py reads. A missing
`marketCap`/`fdv` key or a JSON null is `none`; `liquidityUsd` is the nested
`liquidity.usd` value. -/
structure Pair where
  marketCap : Option ℚ
  fdv : Option ℚ
  dexId : String
  liquidityUsd : Option ℚ
deriving DecidableEq, Repr

/-- Python `a or b` for an optional number: a missing key or a zero value
falls through to the default (0 and None are both falsy). -/
def pyOrQ (a : Option ℚ) (b : ℚ) : ℚ :=
  match a with
  | some v => if v = 0 then b else v
  | none => b

/-- `pair.get("marketCap") or pair.get("fdv") or 0`. -/
def pairMc (p : Pair) : ℚ :=
  pyOrQ p.marketCap (pyOrQ p.fdv 0)

/-- `pair.get("liquidity", {}).get("usd", 0) or 0`. -/
def pairLiquidity (p : Pair) : ℚ :=
  pyOrQ p.liquidityUsd 0

/-- `RUGGED_MC` in price_bot.py. -/
def RUGGED_MC : ℚ := 500

/-- `GRADUATED_MC` in price_bot.py. -/
def GRADUATED_MC : ℚ := 50000

/-- The allow-list `graduated_dexes` in price_bot.py. -/
def graduated_dexes : List String := ["raydium", "meteora", "orca", "jupiter"]

/-- price_bot.py `_determine_status`: no pair keeps the current status; very
low market cap, or positive market cap with liquidity under $100, is rugged;
an allow-listed DEX (compared lowercased) with market cap ≥ $50k, or market
cap ≥ $100k anywhere, is graduated; otherwise the status is unchanged. -/
def determine_status (pair : Option Pair) (current_status : TokenStatus) :
    TokenStatus :=
  match pair with
  | none => current_status
  | some p =>
    let mc := pairMc p
    let dex := pyLower p.dexId
    let liquidity := pairLiquidity p
    if mc < RUGGED_MC ∨ (mc > 0 ∧ liquidity < 100) then
      .rugged
    else if graduated_dexes.contains dex ∧ mc ≥ GRADUATED_MC then
      .graduated
    else if mc ≥ GRADUATED_MC * 2 then
      .graduated
    else current_status

/-- `STALE_HOURS` in price_bot.py, converted to seconds: a token is swept
only while `(now - created_at).total_seconds() / 3600 <= 48`. -/
def staleCutoff : Int := 48 * 3600

/-- What one `price_updater` iteration does to a single Token row: rows kept
by the select filter (status bonding_curve or graduated) and at most 48h old
get their market cap refreshed from any positive fetched value and their
status recomputed by `_determine_status`; every other row is untouched. -/
def sweepRow (now : Int) (pairData : String → Option Pair) (t : Token) :
    Token :=
  if (t.status = .bonding_curve ∨ t.status = .graduated) ∧
      now - t.created_at ≤ staleCutoff then
    let pair := pairData t.contract_address
    let mc' :=
      match pair with
      | some p => if pairMc p > 0 then pairMc p else t.market_cap_at_scan
      | none => t.market_cap_at_scan
    { t with market_cap_at_scan := mc',
             status := determine_status pair t.status }
  else t

/-- One iteration of price_bot.py `price_updater` over the token table, with
the fetched pair data as a lookup parameter. -/
def price_updater_step (now : Int) (pairData : String → Option Pair)
    (tokens : List Token) : List Token :=
  tokens.map (sweepRow now pairData)

/-! ## Candidate promotion (src/app/tasks/wallet_discovery.py, lines 397-433)

`auto_promote_candidates` selects candidates with
`token_count >= min_appearances` and `is_promoted == False`, then loops: if a
TrackedWallet with the candidate's address already exists (`session.get`,
which with autoflush also sees wallets added earlier in the same loop), the
candidate is just marked promoted; otherwise a new active TrackedWallet with
source "discovery" is added and the candidate is marked promoted. The
embedding folds over the candidate table in order, threading the
tracked-wallet table; the selection filter is applied per candidate, which
is equivalent because processing one candidate never changes another's
filter fields. -/

/-- The generated label `f"Discovery_{c.token_count}x ({c.token_symbols[:30]})"`. -/
def discoveryLabel (c : SmartWalletCandidate) : String :=
  "Discovery_" ++ toString c.token_count ++ "x (" ++ c.token_symbols.take 30 ++ ")"

/-- The TrackedWallet row inserted when promoting candidate `c`. -/
def promotedWallet (c : SmartWalletCandidate) : TrackedWallet :=
  { address := c.wallet_address, label := discoveryLabel c,
    status := .active, source := some "discovery" }

/-- The selection filter of `auto_promote_candidates`: appearance threshold
met and not yet promoted. -/
def qualifiesUnpromoted (min_appearances : Nat) (c : SmartWalletCandidate) :
    Prop :=
  min_appearances ≤ c.token_count ∧ c.is_promoted = false

instance (m : Nat) (c : SmartWalletCandidate) :
    Decidable (qualifiesUnpromoted m c) := by
  unfold qualifiesUnpromoted; infer_instance

/-- What one promotion run does to a single candidate row: selected rows get
`is_promoted := true`, others are untouched. -/
def markPromoted (min_appearances : Nat) (c : SmartWalletCandidate) :
    SmartWalletCandidate :=
  if qualifiesUnpromoted min_appearances c then { c with is_promoted := true }
  else c

/-- The promotion loop over the candidate table, threading the tracked-wallet
table; returns the updated candidates, the updated tracked wallets, and the
number of wallets inserted (the function's `promoted` counter). -/
def promoteLoop (min_appearances : Nat) :
    List SmartWalletCandidate → List TrackedWallet →
    List SmartWalletCandidate × List TrackedWallet × Nat
  | [], tracked => ([], tracked, 0)
  | c :: rest, tracked =>
    if qualifiesUnpromoted min_appearances c then
      if tracked.any (fun w => w.address = c.wallet_address) then
        let r := promoteLoop min_appearances rest tracked
        ({ c with is_promoted := true } :: r.1, r.2.1, r.2.2)
      else
        let r := promoteLoop min_appearances rest (tracked ++ [promotedWallet c])
        ({ c with is_promoted := true } :: r.1, r.2.1, r.2.2 + 1)
    else
      let r := promoteLoop min_appearances rest tracked
      (c :: r.1, r.2.1, r.2.2)

/-- wallet_discovery.py `auto_promote_candidates` as a transformation of the
(candidates, tracked wallets) tables. -/
def auto_promote_candidates (min_appearances : Nat)
    (candidates : List SmartWalletCandidate) (tracked : List TrackedWallet) :
    List SmartWalletCandidate × List TrackedWallet × Nat :=
  promoteLoop min_appearances candidates tracked

/-- Number of tracked-wallet rows holding a given address. -/
def trackedCount (tracked : List TrackedWallet) (a : String) : Nat :=
  (tracked.filter (fun w => w.address = a)).length

/-- Number of token rows holding a given contract address. -/
def tokenCount (tokens : List Token) (a : String) : Nat :=
  (tokens.filter (fun t => t.contract_address = a)).length

/-! ## Theorems: the TokenAnalyzer scan pipeline -/

/-- A scan of an address whose Token already exists leaves the store
untouched. -/
theorem scanStore_of_any (a : String) (txs : Option (List Tx))
    (das : Option String) (sg : List String) (now : Int) (db : Store)
    (h : db.tokens.any (fun t => t.contract_address = a) = true) :
    scanStore a txs das sg now db = db := by
  simp [scanStore, scan_new_token, h]

/-- Branch analysis of one scan: either the store is unchanged, or exactly
one Token carrying the scanned address and one Signal are appended. -/
theorem scan_store_cases (a : String) (txs : Option (List Tx))
    (das : Option String) (sg : List String) (now : Int) (db : Store) :
    (scan_new_token a txs das sg now db).1 = db ∨
    ∃ tok sig, tok.contract_address = a ∧
      (scan_new_token a txs das sg now db).1 =
        { db with tokens := db.tokens ++ [tok],
                  signals := db.signals ++ [sig] } := by
  by_cases h1 : db.tokens.any (fun t => t.contract_address = a) = true
  · left; simp [scan_new_token, h1]
  · rcases hm : get_token_metadata a txs das now with _ | meta
    · left; simp [scan_new_token, h1, hm]
    · by_cases h2 : now - meta.created_at > ageCutoff
      · left; simp [scan_new_token, h1, hm, h2]
      · by_cases h3 : (matchedWallets db.wallets sg).length < 2
        · left; simp [scan_new_token, h1, hm, h2, h3]
        · right
          refine ⟨⟨a, meta.symbol, meta.created_at, meta.dev_address,
                    meta.market_cap, .bonding_curve⟩,
                  ⟨a, (matchedWallets db.wallets sg).length,
                    min (50 + (matchedWallets db.wallets sg).length * 10) 100,
                    false⟩,
                  rfl, ?_⟩
          simp [scan_new_token, h1, hm, h2, h3]

/-- Scanning the same candidate twice with the same fetched data is the same
as scanning it once. -/
theorem scanStore_idem (a : String) (txs : Option (List Tx))
    (das : Option String) (sg : List String) (now : Int) (db : Store) :
    scanStore a txs das sg now (scanStore a txs das sg now db) =
      scanStore a txs das sg now db := by
  rcases scan_store_cases a txs das sg now db with h | ⟨tok, sig, ha, h⟩
  · show scanStore a txs das sg now (scan_new_token a txs das sg now db).1 =
      (scan_new_token a txs das sg now db).1
    rw [h]
    exact h
  · show scanStore a txs das sg now (scan_new_token a txs das sg now db).1 =
      (scan_new_token a txs das sg now db).1
    rw [h]
    apply scanStore_of_any
    simp [List.any_append, ha]

/-- Claim C1: a scan on an address whose Token already exists is an immediate
no-op on the store; delivering the same candidate any number of times in
sequence (with the same fetched data) yields the store of a single delivery;
and a scan of a fresh address leaves at most one Token row for it. -/
theorem scan_at_most_one_token (a : String) (txs : Option (List Tx))
    (das : Option String) (sg : List String) (now : Int) (db : Store) :
    (db.tokens.any (fun t => t.contract_address = a) = true →
      scan_new_token a txs das sg now db = (db, .alreadyScanned)) ∧
    (∀ n : Nat, (scanStore a txs das sg now)^[n + 1] db =
      scanStore a txs das sg now db) ∧
    (tokenCount db.tokens a = 0 →
      tokenCount (scanStore a txs das sg now db).tokens a ≤ 1) := by
  refine ⟨?_, ?_, ?_⟩
  · intro h
    simp [scan_new_token, h]
  · intro n
    rw [Function.iterate_succ_apply]
    exact Function.iterate_fixed (scanStore_idem a txs das sg now db) n
  · intro h0
    rcases scan_store_cases a txs das sg now db with h | ⟨tok, sig, ha, h⟩
    · show tokenCount (scan_new_token a txs das sg now db).1.tokens a ≤ 1
      rw [h]
      omega
    · show tokenCount (scan_new_token a txs das sg now db).1.tokens a ≤ 1
      rw [h]
      unfold tokenCount at h0 ⊢
      simp [List.filter_append, ha, h0]

/-- Witness for C1 at concrete inputs: a duplicate delivery is the
`alreadyScanned` no-op, a triple delivery equals a single one, and the fresh
store ends with at most one Token row for the address. -/
theorem scan_at_most_one_token_witness :
    scan_new_token "T" (some []) none [] 0
        { tokens := [{ contract_address := "T", symbol := "S", created_at := 0,
                       dev_address := "d", market_cap_at_scan := 0,
                       status := .bonding_curve }],
          signals := [], wallets := [] } =
      ({ tokens := [{ contract_address := "T", symbol := "S", created_at := 0,
                      dev_address := "d", market_cap_at_scan := 0,
                      status := .bonding_curve }],
         signals := [], wallets := [] }, .alreadyScanned) ∧
    (scanStore "T" (some []) none [] 0)^[3]
        { tokens := [], signals := [], wallets := [] } =
      scanStore "T" (some []) none [] 0
        { tokens := [], signals := [], wallets := [] } ∧
    tokenCount (scanStore "T" (some []) none [] 0
        { tokens := [], signals := [], wallets := [] }).tokens "T" ≤ 1 := by
  refine ⟨(scan_at_most_one_token "T" (some []) none [] 0 _).1 (by decide),
          ?_,
          (scan_at_most_one_token "T" (some []) none [] 0 _).2.2 (by decide)⟩
  simpa using (scan_at_most_one_token "T" (some []) none [] 0
    { tokens := [], signals := [], wallets := [] }).2.1 2

/-- Claim C2: a scan that reaches scoring with `match_count` matched active
tracked wallets persists a Signal whose confidence is
min(100, 50 + 10 × match_count), a value within [50, 100]; and whenever
fewer than 2 active tracked wallets match, the store is left unchanged (no
Signal and no Token is persisted). -/
theorem confidence_score_spec (a : String) (txs : Option (List Tx))
    (das : Option String) (sg : List String) (now : Int) (db : Store) :
    (∀ meta, db.tokens.any (fun t => t.contract_address = a) = false →
      get_token_metadata a txs das now = some meta →
      ¬ now - meta.created_at > ageCutoff →
      2 ≤ (matchedWallets db.wallets sg).length →
      (scan_new_token a txs das sg now db).2 = .signalGenerated ∧
      (scan_new_token a txs das sg now db).1.signals = db.signals ++
        [{ token_address := a,
           smart_wallet_count := (matchedWallets db.wallets sg).length,
           confidence_score :=
             min 100 (50 + 10 * (matchedWallets db.wallets sg).length),
           is_executed := false }] ∧
      50 ≤ min 100 (50 + 10 * (matchedWallets db.wallets sg).length) ∧
      min 100 (50 + 10 * (matchedWallets db.wallets sg).length) ≤ 100) ∧
    ((matchedWallets db.wallets sg).length < 2 →
      (scan_new_token a txs das sg now db).1 = db) := by
  constructor
  · intro meta h1 hm h2 hcnt
    have h3 : ¬ (matchedWallets db.wallets sg).length < 2 := by omega
    refine ⟨by simp [scan_new_token, h1, hm, h2, h3], ?_, ?_, ?_⟩
    · simp [scan_new_token, h1, hm, h2, h3, Nat.min_comm, Nat.mul_comm]
    · omega
    · omega
  · intro hlt
    by_cases h1 : db.tokens.any (fun t => t.contract_address = a) = true
    · simp [scan_new_token, h1]
    · rcases hm : get_token_metadata a txs das now with _ | meta
      · simp [scan_new_token, h1, hm]
      · by_cases h2 : now - meta.created_at > ageCutoff
        · simp [scan_new_token, h1, hm, h2]
        · simp [scan_new_token, h1, hm, h2, hlt]

/-- Witness for C2 at concrete inputs: two active tracked wallets match, the
scan emits a signal with confidence min(100, 50 + 10 × 2) = 70, and with an
empty roster the store is unchanged. -/
theorem confidence_score_spec_witness :
    ((scan_new_token "T" (some []) none ["w1", "w2"] 0
        { tokens := [], signals := [],
          wallets := [{ address := "w1", label := "a", status := .active,
                        source := none },
                      { address := "w2", label := "b", status := .active,
                        source := none }] }).2 = .signalGenerated ∧
      (scan_new_token "T" (some []) none ["w1", "w2"] 0
        { tokens := [], signals := [],
          wallets := [{ address := "w1", label := "a", status := .active,
                        source := none },
                      { address := "w2", label := "b", status := .active,
                        source := none }] }).1.signals = [] ++
        [{ token_address := "T", smart_wallet_count := 2,
           confidence_score := min 100 (50 + 10 * 2),
           is_executed := false }]) ∧
    (scan_new_token "T" (some []) none [] 0
      { tokens := [], signals := [], wallets := [] }).1 =
      { tokens := [], signals := [], wallets := [] } := by
  have h := (confidence_score_spec "T" (some []) none ["w1", "w2"] 0
      { tokens := [], signals := [],
        wallets := [{ address := "w1", label := "a", status := .active,
                      source := none },
                    { address := "w2", label := "b", status := .active,
                      source := none }] }).1
    { symbol := "T", created_at := 0, dev_address := "unknown",
      market_cap := 0 }
    (by decide) (by decide) (by decide) (by decide)
  have h2 := (confidence_score_spec "T" (some []) none [] 0
      { tokens := [], signals := [], wallets := [] }).2 (by decide)
  exact ⟨⟨h.1, by simpa using h.2.1⟩, h2⟩

/-- Claim C3: once the dedup check passes and metadata resolves, the scan is
dropped by the age filter exactly when now − creation_timestamp is strictly
greater than 600 seconds; at age 601 s (10 min 1 s) it is discarded with the
store unchanged, at 599 s (9 min 59 s) it proceeds past the age filter to
the cross-reference step. -/
theorem age_filter_spec (a : String) (txs : Option (List Tx))
    (das : Option String) (sg : List String) (now : Int) (db : Store)
    (meta : Meta)
    (h1 : db.tokens.any (fun t => t.contract_address = a) = false)
    (hm : get_token_metadata a txs das now = some meta) :
    ((scan_new_token a txs das sg now db).2 = .tooOld ↔
      now - meta.created_at > 600) ∧
    ((scan_new_token a txs das sg now db).2 = .tooOld →
      (scan_new_token a txs das sg now db).1 = db) ∧
    (now - meta.created_at = 601 →
      (scan_new_token a txs das sg now db).2 = .tooOld) ∧
    (now - meta.created_at = 599 →
      (scan_new_token a txs das sg now db).2 = .notEnoughMatches ∨
      (scan_new_token a txs das sg now db).2 = .signalGenerated) := by
  by_cases h2 : now - meta.created_at > ageCutoff
  · refine ⟨?_, ?_, ?_, ?_⟩
    · simp [scan_new_token, h1, hm, h2]
      exact h2
    · intro _
      simp [scan_new_token, h1, hm, h2]
    · intro _
      simp [scan_new_token, h1, hm, h2]
    · intro h
      exfalso
      unfold ageCutoff at h2
      omega
  · have hage : ¬ now - meta.created_at > 600 := h2
    refine ⟨?_, ?_, ?_, ?_⟩
    · constructor
      · intro h
        by_cases h3 : (matchedWallets db.wallets sg).length < 2 <;>
          simp [scan_new_token, h1, hm, h2, h3] at h
      · intro h
        exact absurd h hage
    · intro h
      by_cases h3 : (matchedWallets db.wallets sg).length < 2 <;>
        simp [scan_new_token, h1, hm, h2, h3] at h
    · intro h
      exfalso
      unfold ageCutoff at h2
      omega
    · intro _
      by_cases h3 : (matchedWallets db.wallets sg).length < 2
      · left; simp [scan_new_token, h1, hm, h2, h3]
      · right; simp [scan_new_token, h1, hm, h2, h3]

/-- Witness for C3 at concrete inputs: a token created at epoch second 1 is
discarded as too old when scanned at second 602 (age 601 s) and proceeds
when scanned at second 600 (age 599 s). -/
theorem age_filter_spec_witness :
    (scan_new_token "T" (some [(⟨some 1, none, "", ""⟩ : Tx)]) none [] 602
      { tokens := [], signals := [], wallets := [] }).2 = .tooOld ∧
    ((scan_new_token "T" (some [(⟨some 1, none, "", ""⟩ : Tx)]) none [] 600
      { tokens := [], signals := [], wallets := [] }).2 = .notEnoughMatches ∨
     (scan_new_token "T" (some [(⟨some 1, none, "", ""⟩ : Tx)]) none [] 600
      { tokens := [], signals := [], wallets := [] }).2 = .signalGenerated) := by
  refine ⟨(age_filter_spec "T" _ none [] 602 _
      { symbol := "T", created_at := 1, dev_address := "unknown",
        market_cap := 0 } (by decide) (by decide)).2.2.1 (by decide),
    (age_filter_spec "T" _ none [] 600 _
      { symbol := "T", created_at := 1, dev_address := "unknown",
        market_cap := 0 } (by decide) (by decide)).2.2.2 (by decide)⟩

/-- Claim C10: when the enhanced-transaction fetch returns an empty list but
no transport error, metadata resolution still succeeds with created_at = now
and dev_address = "unknown", so the candidate always passes the 10-minute age
filter (its age is 0) and proceeds to the cross-reference step. -/
theorem empty_txs_metadata_spec (a : String) (das : Option String)
    (sg : List String) (now : Int) (db : Store)
    (h1 : db.tokens.any (fun t => t.contract_address = a) = false) :
    get_token_metadata a (some []) das now =
      some { symbol := das.getD (a.take 6), created_at := now,
             dev_address := "unknown", market_cap := 0 } ∧
    ((scan_new_token a (some []) das sg now db).2 = .notEnoughMatches ∨
      (scan_new_token a (some []) das sg now db).2 = .signalGenerated) := by
  have hm : get_token_metadata a (some []) das now =
      some { symbol := das.getD (a.take 6), created_at := now,
             dev_address := "unknown", market_cap := 0 } := by
    simp [get_token_metadata, refinePump]
  refine ⟨hm, ?_⟩
  have h2 : ¬ now -
      (({ symbol := das.getD (a.take 6), created_at := now,
          dev_address := "unknown", market_cap := 0 } : Meta)).created_at >
      ageCutoff := by
    simp [ageCutoff]
  by_cases h3 : (matchedWallets db.wallets sg).length < 2
  · left; simp [scan_new_token, h1, hm, h2, h3, ageCutoff]
  · right; simp [scan_new_token, h1, hm, h2, h3, ageCutoff]

/-- Witness for C10 at concrete inputs: an empty transaction list at scan
time 5 yields metadata with created_at 5 and dev "unknown", and the scan
reaches the cross-reference step. -/
theorem empty_txs_metadata_spec_witness :
    get_token_metadata "TOKENADDR" (some []) none 5 =
      some { symbol := "TOKENA", created_at := 5,
             dev_address := "unknown", market_cap := 0 } ∧
    ((scan_new_token "TOKENADDR" (some []) none [] 5
        { tokens := [], signals := [], wallets := [] }).2 = .notEnoughMatches ∨
      (scan_new_token "TOKENADDR" (some []) none [] 5
        { tokens := [], signals := [], wallets := [] }).2 = .signalGenerated) := by
  have h := empty_txs_metadata_spec "TOKENADDR" none [] 5
    { tokens := [], signals := [], wallets := [] } (by decide)
  exact ⟨by simpa using h.1, h.2⟩

/-! ## Theorems: the PriceTracker status rule -/


/-- The rug test of `_determine_status` (price_bot.py line 78). -/
def ruggedCond (p : Pair) : Prop :=
  pairMc p < RUGGED_MC ∨ (pairMc p > 0 ∧ pairLiquidity p < 100)

instance (p : Pair) : Decidable (ruggedCond p) := by
  unfold ruggedCond; infer_instance

/-- The allow-listed graduation test of `_determine_status` (line 83). -/
def dexGradCond (p : Pair) : Prop :=
  graduated_dexes.contains (pyLower p.dexId) = true ∧ pairMc p ≥ GRADUATED_MC

instance (p : Pair) : Decidable (dexGradCond p) := by
  unfold dexGradCond; infer_instance

theorem determine_status_none (s : TokenStatus) :
    determine_status none s = s := rfl

theorem determine_status_rugged_rule (p : Pair) (s : TokenStatus)
    (h : ruggedCond p) : determine_status (some p) s = .rugged := by
  simp only [determine_status]
  rw [if_pos]
  exact h

theorem determine_status_dex_rule (p : Pair) (s : TokenStatus)
    (hr : ¬ ruggedCond p) (hd : dexGradCond p) :
    determine_status (some p) s = .graduated := by
  have hr2 : ¬ (pairMc p < RUGGED_MC ∨ (pairMc p > 0 ∧ pairLiquidity p < 100)) := hr
  simp only [determine_status]
  rw [if_neg hr2, if_pos]
  exact hd

theorem determine_status_highmc_rule (p : Pair) (s : TokenStatus)
    (hr : ¬ ruggedCond p) (hmc : pairMc p ≥ 100000) :
    determine_status (some p) s = .graduated := by
  have hr2 : ¬ (pairMc p < RUGGED_MC ∨ (pairMc p > 0 ∧ pairLiquidity p < 100)) := hr
  simp only [determine_status]
  rw [if_neg hr2]
  by_cases hg : graduated_dexes.contains (pyLower p.dexId) = true ∧
      pairMc p ≥ GRADUATED_MC
  · rw [if_pos hg]
  · rw [if_neg hg, if_pos]
    unfold GRADUATED_MC
    linarith

theorem determine_status_unchanged_rule (p : Pair) (s : TokenStatus)
    (hr : ¬ ruggedCond p) (hg : ¬ dexGradCond p) (hmc : ¬ pairMc p ≥ 100000) :
    determine_status (some p) s = s := by
  have hr2 : ¬ (pairMc p < RUGGED_MC ∨ (pairMc p > 0 ∧ pairLiquidity p < 100)) := hr
  simp only [determine_status]
  rw [if_neg hr2, if_neg, if_neg]
  · intro h
    apply hmc
    unfold GRADUATED_MC at h
    linarith
  · exact hg

/-- Claim C4: the status rule evaluated from the best-available pair — no
pair data keeps the status; the rug condition (market_cap < $500, or
market_cap > 0 with liquidity < $100) yields rugged; otherwise an
allow-listed venue with market_cap ≥ $50,000 yields graduated; otherwise
market_cap ≥ $100,000 yields graduated on any venue; otherwise the status is
unchanged. In particular $400/$50 is rugged, an allow-listed venue at
$60,000 is graduated, and $150,000 on a non-listed venue is graduated. -/
theorem determine_status_spec :
    (∀ s, determine_status none s = s) ∧
    (∀ p s, ruggedCond p → determine_status (some p) s = .rugged) ∧
    (∀ p s, ¬ ruggedCond p → dexGradCond p →
      determine_status (some p) s = .graduated) ∧
    (∀ p s, ¬ ruggedCond p → pairMc p ≥ 100000 →
      determine_status (some p) s = .graduated) ∧
    (∀ p s, ¬ ruggedCond p → ¬ dexGradCond p → ¬ pairMc p ≥ 100000 →
      determine_status (some p) s = s) ∧
    determine_status (some ⟨some 400, none, "pumpswap", some 50⟩)
      .bonding_curve = .rugged ∧
    determine_status (some ⟨some 60000, none, "raydium", some 1000⟩)
      .bonding_curve = .graduated ∧
    determine_status (some ⟨some 150000, none, "pumpswap", some 1000⟩)
      .bonding_curve = .graduated := by
  refine ⟨determine_status_none, determine_status_rugged_rule,
    determine_status_dex_rule, determine_status_highmc_rule,
    determine_status_unchanged_rule, ?_, ?_, ?_⟩
  · exact determine_status_rugged_rule _ _ (by decide)
  · exact determine_status_dex_rule _ _ (by decide) (by decide)
  · exact determine_status_highmc_rule _ _ (by decide) (by decide)

/-- Witness for C4 at concrete inputs, exercising each hypothesis-bearing
rule of the status table. -/
theorem determine_status_spec_witness :
    determine_status (some ⟨some 400, none, "pumpswap", some 50⟩)
      .graduated = .rugged ∧
    determine_status (some ⟨some 60000, none, "Raydium", some 1000⟩)
      .bonding_curve = .graduated ∧
    determine_status (some ⟨some 150000, none, "pumpswap", some 1000⟩)
      .graduated = .graduated ∧
    determine_status (some ⟨some 20000, none, "pumpswap", some 1000⟩)
      .bonding_curve = .bonding_curve := by
  refine ⟨(determine_status_spec.2.1) _ _ (by decide),
    (determine_status_spec.2.2.1) _ _ (by decide) (by decide),
    (determine_status_spec.2.2.2.1) _ _ (by decide) (by decide),
    (determine_status_spec.2.2.2.2.1) _ _ (by decide) (by decide) (by decide)⟩


/-- Counterexample to claim C5 as stated: a graduated token whose best pair shows
market_cap $400 and liquidity $50 is demoted to rugged by the sweep. -/
theorem graduated_demotion_cex :
    price_updater_step 0
      (fun _ => some ⟨some 400, none, "pumpswap", some 50⟩)
      [{ contract_address := "T", symbol := "S", created_at := 0,
         dev_address := "d", market_cap_at_scan := 60000,
         status := .graduated }] =
      [{ contract_address := "T", symbol := "S", created_at := 0,
         dev_address := "d", market_cap_at_scan := 400,
         status := .rugged }] ∧
    TokenStatus.rugged ≠ TokenStatus.graduated := by
  constructor
  · decide
  · decide

/-- Amended claim C5: a rugged token is excluded from the sweep, so its row
is never changed; a graduated token is never demoted to bonding_curve, and
the only transition out of graduated is to rugged, which happens exactly
when its best pair satisfies the rug condition; and the sweep is the row
map applied to the table. -/
theorem rugged_sticky_graduated_semi (now : Int)
    (pairData : String → Option Pair) (t : Token) :
    (t.status = .rugged → sweepRow now pairData t = t) ∧
    (t.status = .graduated → (sweepRow now pairData t).status ≠ .bonding_curve) ∧
    (t.status = .graduated → (sweepRow now pairData t).status = .graduated ∨
      ((sweepRow now pairData t).status = .rugged ∧
        ∃ p, pairData t.contract_address = some p ∧ ruggedCond p)) ∧
    (∀ tokens, price_updater_step now pairData tokens =
      tokens.map (sweepRow now pairData)) := by
  refine ⟨?_, ?_, ?_, fun _ => rfl⟩
  · intro h
    unfold sweepRow
    rw [if_neg]
    intro hc
    rcases hc.1 with h1 | h1 <;> rw [h] at h1 <;> exact absurd h1 (by decide)
  · intro h
    unfold sweepRow
    by_cases hc : (t.status = .bonding_curve ∨ t.status = .graduated) ∧
        now - t.created_at ≤ staleCutoff
    · rw [if_pos hc]
      rcases hp : pairData t.contract_address with _ | p
      · simp [determine_status, h]
      · by_cases hr : ruggedCond p
        · simp [determine_status_rugged_rule p t.status hr]
        · by_cases hg : dexGradCond p
          · simp [determine_status_dex_rule p t.status hr hg]
          · by_cases hmc : pairMc p ≥ 100000
            · simp [determine_status_highmc_rule p t.status hr hmc]
            · simp [h, determine_status_unchanged_rule p TokenStatus.graduated hr hg hmc]
    · rw [if_neg hc]
      rw [h]
      decide
  · intro h
    unfold sweepRow
    by_cases hc : (t.status = .bonding_curve ∨ t.status = .graduated) ∧
        now - t.created_at ≤ staleCutoff
    · rw [if_pos hc]
      rcases hp : pairData t.contract_address with _ | p
      · left; simp [determine_status, h]
      · by_cases hr : ruggedCond p
        · right
          refine ⟨by simp [determine_status_rugged_rule p t.status hr], p, rfl, hr⟩
        · by_cases hg : dexGradCond p
          · left; simp [determine_status_dex_rule p t.status hr hg]
          · by_cases hmc : pairMc p ≥ 100000
            · left; simp [determine_status_highmc_rule p t.status hr hmc]
            · left; simp [h, determine_status_unchanged_rule p TokenStatus.graduated hr hg hmc]
    · rw [if_neg hc]
      left; exact h

/-- Witness for the amended C5 at concrete inputs: a rugged row is untouched
even when its pair would graduate it, and a graduated row never becomes
bonding_curve. -/
theorem rugged_sticky_witness :
    sweepRow 0 (fun _ => some ⟨some 60000, none, "raydium", some 1000⟩)
      { contract_address := "T", symbol := "S", created_at := 0,
        dev_address := "d", market_cap_at_scan := 1,
        status := .rugged } =
      { contract_address := "T", symbol := "S", created_at := 0,
        dev_address := "d", market_cap_at_scan := 1,
        status := .rugged } ∧
    (sweepRow 0 (fun _ => some ⟨some 400, none, "pumpswap", some 50⟩)
      { contract_address := "G", symbol := "S", created_at := 0,
        dev_address := "d", market_cap_at_scan := 60000,
        status := .graduated }).status ≠ .bonding_curve := by
  refine ⟨(rugged_sticky_graduated_semi 0 _ _).1 rfl,
          (rugged_sticky_graduated_semi 0 _ _).2.1 rfl⟩


/-! ## Theorems: candidate promotion -/


theorem trackedCount_append (tr tr2 : List TrackedWallet) (a : String) :
    trackedCount (tr ++ tr2) a = trackedCount tr a + trackedCount tr2 a := by
  simp [trackedCount, List.filter_append]

theorem trackedCount_eq_zero_iff (tr : List TrackedWallet) (a : String) :
    trackedCount tr a = 0 ↔ tr.any (fun w => w.address = a) = false := by
  rw [trackedCount, List.length_eq_zero, List.filter_eq_nil_iff,
    List.any_eq_false]

/-- Insertion would happen for address `a` during promotion of `cs`. -/
def insertionDue (m : Nat) (cs : List SmartWalletCandidate) (a : String) :
    Prop :=
  ∃ c ∈ cs, qualifiesUnpromoted m c ∧ c.wallet_address = a

instance (m : Nat) (cs : List SmartWalletCandidate) (a : String) :
    Decidable (insertionDue m cs a) := by
  unfold insertionDue; infer_instance

theorem insertionDue_cons_of_ne (m : Nat) (c : SmartWalletCandidate)
    (rest : List SmartWalletCandidate) (a : String)
    (ha : ¬ c.wallet_address = a) :
    insertionDue m rest a ↔ insertionDue m (c :: rest) a := by
  constructor
  · rintro ⟨c2, hc2, h2⟩
    exact ⟨c2, List.mem_cons_of_mem c hc2, h2⟩
  · rintro ⟨c2, hc2, h2⟩
    rcases List.mem_cons.mp hc2 with rfl | hc2
    · exact absurd h2.2 ha
    · exact ⟨c2, hc2, h2⟩

theorem insertionDue_cons_of_not_qual (m : Nat) (c : SmartWalletCandidate)
    (rest : List SmartWalletCandidate) (a : String)
    (hq : ¬ qualifiesUnpromoted m c) :
    insertionDue m rest a ↔ insertionDue m (c :: rest) a := by
  constructor
  · rintro ⟨c2, hc2, h2⟩
    exact ⟨c2, List.mem_cons_of_mem c hc2, h2⟩
  · rintro ⟨c2, hc2, h2⟩
    rcases List.mem_cons.mp hc2 with rfl | hc2
    · exact absurd h2.1 hq
    · exact ⟨c2, hc2, h2⟩

theorem promoteLoop_count (m : Nat) (cs : List SmartWalletCandidate)
    (tr : List TrackedWallet) (a : String)
    (hnd : (cs.map SmartWalletCandidate.wallet_address).Nodup) :
    trackedCount (promoteLoop m cs tr).2.1 a =
      trackedCount tr a +
        (if trackedCount tr a = 0 ∧ insertionDue m cs a then 1 else 0) := by
  induction cs generalizing tr with
  | nil => simp [promoteLoop, insertionDue]
  | cons c rest ih =>
    rw [List.map_cons, List.nodup_cons] at hnd
    by_cases hq : qualifiesUnpromoted m c
    · by_cases he : tr.any (fun w => w.address = c.wallet_address) = true
      · rw [promoteLoop, if_pos hq, if_pos he]
        show trackedCount (promoteLoop m rest tr).2.1 a = _
        rw [ih tr hnd.2]
        congr 1
        by_cases ha : c.wallet_address = a
        · have hcnt : ¬ trackedCount tr a = 0 := by
            rw [trackedCount_eq_zero_iff]
            rw [ha] at he
            rw [he]
            decide
          rw [if_neg (fun h => hcnt h.1), if_neg (fun h => hcnt h.1)]
        · rw [if_congr (and_congr_right fun _ =>
            insertionDue_cons_of_ne m c rest a ha) rfl rfl]
      · rw [promoteLoop, if_pos hq, if_neg he]
        show trackedCount
          (promoteLoop m rest (tr ++ [promotedWallet c])).2.1 a = _
        rw [ih (tr ++ [promotedWallet c]) hnd.2, trackedCount_append]
        by_cases ha : c.wallet_address = a
        · rw [ha] at he
          have h0 : trackedCount tr a = 0 := by
            rw [trackedCount_eq_zero_iff]
            exact Bool.not_eq_true _ ▸ he
          have h1 : trackedCount [promotedWallet c] a = 1 := by
            simp [trackedCount, promotedWallet, ha]
          have hnotin : ¬ insertionDue m rest a := by
            rintro ⟨c2, hc2, hq2, ha2⟩
            exact hnd.1 (List.mem_map.mpr ⟨c2, hc2, ha2.trans ha.symm⟩)
          rw [h0, h1, if_neg (fun h => hnotin h.2),
            if_pos ⟨rfl, c, List.mem_cons_self c rest, hq, ha⟩]
        · have h1 : trackedCount [promotedWallet c] a = 0 := by
            simp [trackedCount, promotedWallet, ha]
          rw [h1]
          simp only [Nat.add_zero]
          rw [if_congr (and_congr_right fun _ =>
            insertionDue_cons_of_ne m c rest a ha) rfl rfl]
    · rw [promoteLoop, if_neg hq]
      show trackedCount (promoteLoop m rest tr).2.1 a = _
      rw [ih tr hnd.2]
      congr 1
      rw [if_congr (and_congr_right fun _ =>
        insertionDue_cons_of_not_qual m c rest a hq) rfl rfl]


theorem promoteLoop_candidates (m : Nat) (cs : List SmartWalletCandidate)
    (tr : List TrackedWallet) :
    (promoteLoop m cs tr).1 = cs.map (markPromoted m) := by
  induction cs generalizing tr with
  | nil => rfl
  | cons c rest ih =>
    by_cases hq : qualifiesUnpromoted m c
    · by_cases he : tr.any (fun w => w.address = c.wallet_address) = true
      · simp [promoteLoop, hq, he, markPromoted, ih]
      · simp [promoteLoop, hq, he, markPromoted, ih]
    · simp [promoteLoop, hq, markPromoted, ih]

theorem markPromoted_not_qualifies (m : Nat) (c : SmartWalletCandidate) :
    ¬ qualifiesUnpromoted m (markPromoted m c) := by
  unfold markPromoted
  by_cases hq : qualifiesUnpromoted m c
  · rw [if_pos hq]
    intro h
    have hb : (true : Bool) = false := h.2
    exact absurd hb (by decide)
  · rw [if_neg hq]
    exact hq

theorem promoteLoop_fixed (m : Nat) (cs : List SmartWalletCandidate)
    (tr : List TrackedWallet) :
    promoteLoop m (cs.map (markPromoted m)) tr =
      (cs.map (markPromoted m), tr, 0) := by
  induction cs generalizing tr with
  | nil => rfl
  | cons c rest ih =>
    simp only [List.map_cons, promoteLoop,
      if_neg (markPromoted_not_qualifies m c), ih]

theorem promoteLoop_tracked_mem (m : Nat) (cs : List SmartWalletCandidate)
    (tr : List TrackedWallet) (w : TrackedWallet)
    (hw : w ∈ (promoteLoop m cs tr).2.1) :
    w ∈ tr ∨ ∃ c ∈ cs, qualifiesUnpromoted m c ∧ w = promotedWallet c := by
  induction cs generalizing tr with
  | nil => exact .inl hw
  | cons c rest ih =>
    by_cases hq : qualifiesUnpromoted m c
    · by_cases he : tr.any (fun x => x.address = c.wallet_address) = true
      · rw [promoteLoop, if_pos hq, if_pos he] at hw
        rcases ih tr hw with h | ⟨c2, hc2, hq2, hw2⟩
        · exact .inl h
        · exact .inr ⟨c2, List.mem_cons_of_mem c hc2, hq2, hw2⟩
      · rw [promoteLoop, if_pos hq, if_neg he] at hw
        rcases ih (tr ++ [promotedWallet c]) hw with h | ⟨c2, hc2, hq2, hw2⟩
        · rcases List.mem_append.mp h with h2 | h2
          · exact .inl h2
          · exact .inr ⟨c, List.mem_cons_self c rest, hq,
              List.mem_singleton.mp h2⟩
        · exact .inr ⟨c2, List.mem_cons_of_mem c hc2, hq2, hw2⟩
    · rw [promoteLoop, if_neg hq] at hw
      rcases ih tr hw with h | ⟨c2, hc2, hq2, hw2⟩
      · exact .inl h
      · exact .inr ⟨c2, List.mem_cons_of_mem c hc2, hq2, hw2⟩

/-- Claim C6: promotion marks exactly the qualifying unpromoted candidates;
running it a second time is a complete no-op (idempotent, zero promotions);
is_promoted is monotonic (never reverted from true); tracked wallets are
never duplicated (per-address count stays at most 1); an already-tracked
address gains no second wallet; a qualifying untracked address gains exactly
one wallet; and every inserted wallet is active with source "discovery". -/
theorem auto_promote_spec (m : Nat) (cs : List SmartWalletCandidate)
    (tr : List TrackedWallet)
    (hnd : (cs.map SmartWalletCandidate.wallet_address).Nodup) :
    ((auto_promote_candidates m cs tr).1 = cs.map (markPromoted m)) ∧
    (auto_promote_candidates m (auto_promote_candidates m cs tr).1
        (auto_promote_candidates m cs tr).2.1 =
      ((auto_promote_candidates m cs tr).1,
       (auto_promote_candidates m cs tr).2.1, 0)) ∧
    (∀ c ∈ cs, c.is_promoted = true → (markPromoted m c).is_promoted = true) ∧
    (∀ a, trackedCount tr a ≤ 1 →
      trackedCount (auto_promote_candidates m cs tr).2.1 a ≤ 1) ∧
    (∀ a, 1 ≤ trackedCount tr a →
      trackedCount (auto_promote_candidates m cs tr).2.1 a =
        trackedCount tr a) ∧
    (∀ a, trackedCount tr a = 0 → insertionDue m cs a →
      trackedCount (auto_promote_candidates m cs tr).2.1 a = 1) ∧
    (∀ w ∈ (auto_promote_candidates m cs tr).2.1, w ∈ tr ∨
      (w.status = .active ∧ w.source = some "discovery" ∧
        ∃ c ∈ cs, qualifiesUnpromoted m c ∧ w = promotedWallet c)) := by
  refine ⟨promoteLoop_candidates m cs tr, ?_, ?_, ?_, ?_, ?_, ?_⟩
  · unfold auto_promote_candidates
    rw [promoteLoop_candidates m cs tr, promoteLoop_fixed]
  · intro c _ hp
    unfold markPromoted
    by_cases hq : qualifiesUnpromoted m c
    · rw [if_pos hq]
    · rw [if_neg hq]
      exact hp
  · intro a hle
    unfold auto_promote_candidates
    rw [promoteLoop_count m cs tr a hnd]
    by_cases hc : trackedCount tr a = 0 ∧ insertionDue m cs a
    · rw [if_pos hc, hc.1]
    · rw [if_neg hc]
      omega
  · intro a hge
    unfold auto_promote_candidates
    rw [promoteLoop_count m cs tr a hnd, if_neg]
    · omega
    · intro h
      omega
  · intro a h0 hdue
    unfold auto_promote_candidates
    rw [promoteLoop_count m cs tr a hnd, if_pos ⟨h0, hdue⟩, h0]
  · intro w hw
    rcases promoteLoop_tracked_mem m cs tr w hw with h | ⟨c, hc, hq, rfl⟩
    · exact .inl h
    · exact .inr ⟨rfl, rfl, c, hc, hq, rfl⟩

/-- Witness for C6 at concrete inputs: candidate w1 (3 appearances) is
promoted with one new tracked wallet, candidate w2 (1 appearance, already
tracked) is left unpromoted and unduplicated. -/
theorem auto_promote_spec_witness :
    (auto_promote_candidates 2
        [⟨"w1", 3, "A, B, C", false⟩, ⟨"w2", 1, "A", false⟩]
        [⟨"w2", "manual", .active, some "manual"⟩]).1 =
      [⟨"w1", 3, "A, B, C", true⟩, ⟨"w2", 1, "A", false⟩] ∧
    trackedCount (auto_promote_candidates 2
        [⟨"w1", 3, "A, B, C", false⟩, ⟨"w2", 1, "A", false⟩]
        [⟨"w2", "manual", .active, some "manual"⟩]).2.1 "w1" = 1 := by
  have h := auto_promote_spec 2
    [⟨"w1", 3, "A, B, C", false⟩, ⟨"w2", 1, "A", false⟩]
    [⟨"w2", "manual", .active, some "manual"⟩] (by decide)
  refine ⟨?_, ?_⟩
  · rw [h.1]
    decide
  · exact h.2.2.2.2.2.1 "w1" (by decide)
      ⟨⟨"w1", 3, "A, B, C", false⟩, by decide, by decide, rfl⟩


/-! ## Theorems: scan persistence under a concurrent insert -/


/-- Counterexample to claim C7 as stated: with a concurrent insert of the
same address between dedup check and commit, the scan surfaces a
duplicate-key error (the claim-modelled variant would instead return the
benign dedup outcome). -/
theorem scan_race_cex :
    (scan_new_token_race "T" (some []) none ["w1", "w2"] 0
        { tokens := [], signals := [],
          wallets := [⟨"w1", "a", .active, none⟩,
                      ⟨"w2", "b", .active, none⟩] }
        [⟨"T", "S", 0, "d", 0, .bonding_curve⟩]).2 =
      .error .duplicateKey ∧
    (scan_new_token_race_claimed "T" (some []) none ["w1", "w2"] 0
        { tokens := [], signals := [],
          wallets := [⟨"w1", "a", .active, none⟩,
                      ⟨"w2", "b", .active, none⟩] }
        [⟨"T", "S", 0, "d", 0, .bonding_curve⟩]).2 =
      .ok .alreadyScanned := by
  exact ⟨rfl, rfl⟩

/-- Amended claim C7: the unguarded commit means a concurrent duplicate
insert surfaces as a duplicate-key error from the scan (it is not absorbed
as the dedup case); persistence is still atomic — on error the scan's Token
and Signal are both rolled back, on success both are appended — and with no
concurrent writer the scan never errors. -/
theorem scan_race_spec (a : String) (txs : Option (List Tx))
    (das : Option String) (sg : List String) (now : Int) (db : Store)
    (concurrent : List Token) :
    (scan_new_token_race a txs das sg now db [] =
      ((scan_new_token a txs das sg now db).1,
        .ok (scan_new_token a txs das sg now db).2)) ∧
    (∀ e, (scan_new_token_race a txs das sg now db concurrent).2 = .error e →
      (scan_new_token_race a txs das sg now db concurrent).1 =
        { db with tokens := db.tokens ++ concurrent }) ∧
    ((scan_new_token_race a txs das sg now db concurrent).2 =
        .ok .signalGenerated →
      ∃ tok sig, tok.contract_address = a ∧ sig.token_address = a ∧
        (scan_new_token_race a txs das sg now db concurrent).1 =
          { db with tokens := (db.tokens ++ concurrent) ++ [tok],
                    signals := db.signals ++ [sig] }) ∧
    (∀ meta, db.tokens.any (fun t => t.contract_address = a) = false →
      get_token_metadata a txs das now = some meta →
      ¬ now - meta.created_at > ageCutoff →
      ¬ (matchedWallets db.wallets sg).length < 2 →
      concurrent.any (fun t => t.contract_address = a) = true →
      (scan_new_token_race a txs das sg now db concurrent).2 =
        .error .duplicateKey) := by
  refine ⟨?_, ?_, ?_, ?_⟩
  · by_cases h1 : db.tokens.any (fun t => t.contract_address = a) = true
    · simp [scan_new_token_race, scan_new_token, h1]
    · rcases hm : get_token_metadata a txs das now with _ | meta
      · simp [scan_new_token_race, scan_new_token, h1, hm]
      · by_cases h2 : now - meta.created_at > ageCutoff
        · simp [scan_new_token_race, scan_new_token, h1, hm, h2]
        · by_cases h3 : (matchedWallets db.wallets sg).length < 2
          · simp [scan_new_token_race, scan_new_token, h1, hm, h2, h3]
          · simp [scan_new_token_race, scan_new_token, commitTokenSignal,
              h1, hm, h2, h3]
  · intro e he
    by_cases h1 : db.tokens.any (fun t => t.contract_address = a) = true
    · simp [scan_new_token_race, h1] at he
    · rcases hm : get_token_metadata a txs das now with _ | meta
      · simp [scan_new_token_race, h1, hm] at he
      · by_cases h2 : now - meta.created_at > ageCutoff
        · simp [scan_new_token_race, h1, hm, h2] at he
        · by_cases h3 : (matchedWallets db.wallets sg).length < 2
          · simp [scan_new_token_race, h1, hm, h2, h3] at he
          · by_cases hc : (db.tokens ++ concurrent).any
                (fun t => t.contract_address = a) = true
            · simp [scan_new_token_race, commitTokenSignal, h1, hm, h2, h3, hc]
            · simp [scan_new_token_race, commitTokenSignal,
                h1, hm, h2, h3, hc] at he
  · intro hs
    by_cases h1 : db.tokens.any (fun t => t.contract_address = a) = true
    · simp [scan_new_token_race, h1] at hs
    · rcases hm : get_token_metadata a txs das now with _ | meta
      · simp [scan_new_token_race, h1, hm] at hs
      · by_cases h2 : now - meta.created_at > ageCutoff
        · simp [scan_new_token_race, h1, hm, h2] at hs
        · by_cases h3 : (matchedWallets db.wallets sg).length < 2
          · simp [scan_new_token_race, h1, hm, h2, h3] at hs
          · by_cases hc : (db.tokens ++ concurrent).any
                (fun t => t.contract_address = a) = true
            · simp [scan_new_token_race, commitTokenSignal,
                h1, hm, h2, h3, hc] at hs
            · refine ⟨⟨a, meta.symbol, meta.created_at, meta.dev_address,
                  meta.market_cap, .bonding_curve⟩,
                ⟨a, (matchedWallets db.wallets sg).length,
                  min (50 + (matchedWallets db.wallets sg).length * 10) 100,
                  false⟩, rfl, rfl, ?_⟩
              simp [scan_new_token_race, commitTokenSignal, h1, hm, h2, h3, hc]
  · intro meta h1 hm h2 h3 hc
    have hc2 : (db.tokens ++ concurrent).any
        (fun t => t.contract_address = a) = true := by
      rw [List.any_append, hc]
      simp
    simp [scan_new_token_race, commitTokenSignal, h1, hm, h2, h3, hc2]


/-- Witness for the amended C7 at concrete inputs: the conflicting commit
errors and leaves only the concurrently inserted Token, no Signal. -/
theorem scan_race_spec_witness :
    (scan_new_token_race "T" (some []) none ["w1", "w2"] 0
        (⟨[], [], [⟨"w1", "a", .active, none⟩, ⟨"w2", "b", .active, none⟩]⟩ :
          Store)
        [⟨"T", "S", 0, "d", 0, .bonding_curve⟩]).2 =
      .error .duplicateKey ∧
    (scan_new_token_race "T" (some []) none ["w1", "w2"] 0
        (⟨[], [], [⟨"w1", "a", .active, none⟩, ⟨"w2", "b", .active, none⟩]⟩ :
          Store)
        [⟨"T", "S", 0, "d", 0, .bonding_curve⟩]).1 =
      (⟨[⟨"T", "S", 0, "d", 0, .bonding_curve⟩], [],
        [⟨"w1", "a", .active, none⟩, ⟨"w2", "b", .active, none⟩]⟩ : Store) := by
  have h := scan_race_spec "T" (some []) none ["w1", "w2"] 0
    (⟨[], [], [⟨"w1", "a", .active, none⟩, ⟨"w2", "b", .active, none⟩]⟩ :
      Store)
    [⟨"T", "S", 0, "d", 0, .bonding_curve⟩]
  have herr := h.2.2.2 ⟨"T", 0, "unknown", 0⟩
    (by decide) (by decide) (by decide) (by decide) (by decide)
  refine ⟨herr, ?_⟩
  have hst := h.2.1 .duplicateKey herr
  simpa using hst


/-! ## Theorems: mint extraction from logs -/


/-- Counterexample to claim C8 as stated: log-based extraction does not
scan lines whose only creation marker is "InitializeMint", nor lines where
"create" appears in a casing other than "Create"/"create" (e.g. "CREATED"),
although both carry a qualifying 32-character alphanumeric token; the
claim-modelled extractor returns the token on both inputs, the code returns
none. -/
theorem extract_logs_cex :
    extract_token_address_from_logs
      ["InitializeMint AAAAAAAAAAAAAAAAAAAAAAAAAAAAAAAA"] = none ∧
    extract_from_logs_claimed
      ["InitializeMint AAAAAAAAAAAAAAAAAAAAAAAAAAAAAAAA"] =
      some "AAAAAAAAAAAAAAAAAAAAAAAAAAAAAAAA" ∧
    extract_token_address_from_logs
      ["CREATED AAAAAAAAAAAAAAAAAAAAAAAAAAAAAAAA"] = none ∧
    extract_from_logs_claimed
      ["CREATED AAAAAAAAAAAAAAAAAAAAAAAAAAAAAAAA"] =
      some "AAAAAAAAAAAAAAAAAAAAAAAAAAAAAAAA" := by
  exact ⟨by decide, by decide, by decide, by decide⟩

/-- Amended claim C8: extraction scans the whitespace tokens of every line
containing "Create" or "create" as a literal substring (lines marked only by
"InitializeMint", or by other casings of "create", are not scanned); it
returns none exactly when no such line holds a qualifying token, any
returned token qualifies (length in [32,44] after punctuation stripping,
alphanumeric), and the first qualifying token of the first matching line is
the one returned. -/
theorem extract_logs_spec (logs : List String) :
    (extract_token_address_from_logs logs = none ↔
      ∀ msg ∈ logs, (strContains msg "Create" ∨ strContains msg "create") →
        ∀ part ∈ pySplitWs msg, qualifyLogToken part = none) ∧
    (∀ c, extract_token_address_from_logs logs = some c →
      (∃ msg ∈ logs, (strContains msg "Create" ∨ strContains msg "create") ∧
        ∃ part ∈ pySplitWs msg, qualifyLogToken part = some c) ∧
      32 ≤ c.length ∧ c.length ≤ 44 ∧ pyIsAlnum c = true) ∧
    extract_token_address_from_logs
      ["Program log: Create: AAAAAAAAAAAAAAAAAAAAAAAAAAAAAAAA",
       "Create BBBBBBBBBBBBBBBBBBBBBBBBBBBBBBBB"] =
      some "AAAAAAAAAAAAAAAAAAAAAAAAAAAAAAAA" := by
  refine ⟨?_, ?_, by decide⟩
  · rw [extract_token_address_from_logs, List.findSome?_eq_none_iff]
    constructor
    · intro h msg hmsg hmark part hpart
      have h2 := h msg hmsg
      rw [if_pos hmark, List.findSome?_eq_none_iff] at h2
      exact h2 part hpart
    · intro h msg hmsg
      by_cases hmark : (strContains msg "Create" ∨ strContains msg "create")
      · rw [if_pos hmark, List.findSome?_eq_none_iff]
        exact h msg hmsg hmark
      · rw [if_neg hmark]
  · intro c hc
    rw [extract_token_address_from_logs] at hc
    rcases List.exists_of_findSome?_eq_some hc with ⟨msg, hmsg, hf⟩
    by_cases hmark : (strContains msg "Create" ∨ strContains msg "create")
    · rw [if_pos hmark] at hf
      rcases List.exists_of_findSome?_eq_some hf with ⟨part, hpart, hq⟩
      have hprops : 32 ≤ c.length ∧ c.length ≤ 44 ∧ pyIsAlnum c = true := by
        unfold qualifyLogToken at hq
        by_cases hcond : 32 ≤ (pyStrip part).length ∧
            (pyStrip part).length ≤ 44 ∧ pyIsAlnum (pyStrip part)
        · rw [if_pos hcond] at hq
          cases hq
          exact ⟨hcond.1, hcond.2.1, hcond.2.2⟩
        · rw [if_neg hcond] at hq
          cases hq
      exact ⟨⟨msg, hmsg, hmark, part, hpart, hq⟩, hprops⟩
    · rw [if_neg hmark] at hf
      cases hf

/-- Witness for the amended C8 at concrete inputs. -/
theorem extract_logs_spec_witness :
    extract_token_address_from_logs
      ["sig: abc", "noise CCCC"] = none ∧
    (32 ≤ ("AAAAAAAAAAAAAAAAAAAAAAAAAAAAAAAA" : String).length ∧
      ("AAAAAAAAAAAAAAAAAAAAAAAAAAAAAAAA" : String).length ≤ 44 ∧
      pyIsAlnum "AAAAAAAAAAAAAAAAAAAAAAAAAAAAAAAA" = true) := by
  constructor
  · exact (extract_logs_spec ["sig: abc", "noise CCCC"]).1.mpr (by decide)
  · exact ((extract_logs_spec
      ["Create AAAAAAAAAAAAAAAAAAAAAAAAAAAAAAAA"]).2.1
      "AAAAAAAAAAAAAAAAAAAAAAAAAAAAAAAA" (by decide)).2


/-! ## Theorems: the polling dedup cap -/


/-- Counterexample to claim C9 as stated: signatures 0..5000 seen in that
order (5000 most recent, among the most recent 2000 of the insertion order);
`list(seen_signatures)` may enumerate the set in the order
5000, 0, 1, ..., 4999 (a permutation of the same set), and the cap then
retains a 2000-element subset that does NOT contain the most recently seen
signature 5000, so a recent signature is no longer recognized as seen. -/
theorem capSeen_cex :
    (5000 :: List.range 5000).Perm (List.range 5001) ∧
    5000 ∈ (List.range 5001).drop ((List.range 5001).length - 2000) ∧
    (5000 :: List.range 5000).length > 5000 ∧
    5000 ∉ capSeen (5000 :: List.range 5000) := by
  have hr : List.range 5001 = List.range 5000 ++ [5000] := by
    have h := List.range_succ 5000
    norm_num at h
    exact h
  have hlen : (5000 :: List.range 5000).length = 5001 := by
    rw [List.length_cons, List.length_range]
  refine ⟨?_, ?_, ?_, ?_⟩
  · rw [hr]
    exact (List.perm_append_singleton 5000 (List.range 5000)).symm
  · rw [List.length_range,
      show (5001 : Nat) - 2000 = 3001 from by norm_num, hr,
      List.drop_append_of_le_length (by rw [List.length_range]; norm_num)]
    exact List.mem_append_right _ (by simp)
  · rw [hlen]
    norm_num
  · intro hmem
    rw [capSeen, if_pos (by rw [hlen]; norm_num), hlen,
      show (5001 : Nat) - 2000 = 3001 from by norm_num,
      List.drop_succ_cons] at hmem
    have h2 := List.mem_of_mem_drop hmem
    rw [List.mem_range] at h2
    omega

/-- Amended claim C9: whenever the seen-set exceeds 5000 entries, the cap
retains exactly the last 2000 entries of the set's (unspecified) iteration
order — a bounded subset of the seen signatures, with no recency
guarantee. -/
theorem capSeen_spec {α : Type} (l : List α) (h : l.length > 5000) :
    (capSeen l).length = 2000 ∧
    capSeen l = l.drop (l.length - 2000) ∧
    ∀ x ∈ capSeen l, x ∈ l := by
  have hcap : capSeen l = l.drop (l.length - 2000) := by
    rw [capSeen, if_pos h]
  refine ⟨?_, hcap, ?_⟩
  · rw [hcap, List.length_drop]
    omega
  · intro x hx
    rw [hcap] at hx
    exact List.mem_of_mem_drop hx

/-- Witness for the amended C9 at a concrete enumeration. -/
theorem capSeen_spec_witness :
    (capSeen (List.range 5001)).length = 2000 ∧
    capSeen (List.range 5001) = (List.range 5001).drop 3001 ∧
    ∀ x ∈ capSeen (List.range 5001), x ∈ List.range 5001 := by
  have h := capSeen_spec (List.range 5001) (by rw [List.length_range]; norm_num)
  refine ⟨h.1, ?_, h.2.2⟩
  rw [h.2.1, List.length_range,
    show (5001 : Nat) - 2000 = 3001 from by norm_num]


end SolSniper
